import Mathlib

/-!
Shallow embedding of `src/modules/runners/lambdas/runners/src/scale-runners/scale-up.ts`.

The TypeScript module exports `scaleUp(eventSource, payload)`, an async
function that, on a `queued` check run, walks a hardcoded table of runner
types and conditionally requests creation of one runner per type.  All
outbound effects (authentication, installation lookup, check-run fetch,
tracked-runner listing, live-runner listing, registration-token creation,
runner creation) are modelled as an explicit trace of `Call` events; the
responses the collaborators would give are supplied up front in a `World`
record, and the environment variables in an `Env` record.  The embedding
returns `Except String (List Call)`: `Except.error` models the thrown
`Error('Cannot handle non-SQS events!')`, and `Except.ok calls` the
successfully completed invocation together with the ordered list of
outbound calls it made.
-/

/-- `RunnerType` from `runners.ts` as used in `scale-up.ts`: one entry of the
hardcoded `runnerTypes` dictionary. -/
structure RunnerType where
  instance_type : String
  os : String
  ami_filter : String
  max_available : Nat
  min_available : Nat
  disk_size : Nat
  runnerTypeName : String
deriving DecidableEq, Repr

/-- A locally tracked runner record as returned by `listRunners`; `scale-up.ts`
only reads its `runnerType` field (`currentRunners.filter(x => x.runnerType === runnerType)`). -/
structure RunnerRecord where
  runnerType : String
deriving DecidableEq, Repr

/-- A label object of a live GitHub runner (`x.labels` elements have a `name`). -/
structure GhLabel where
  name : String
deriving DecidableEq, Repr

/-- A live runner as reported by `listGithubRunners`: labels, status string and
busy flag, the three fields `allRunnersBusy` reads. -/
structure GhRunner where
  labels : List GhLabel
  status : String
  busy : Bool
deriving DecidableEq, Repr

/-- `ActionRequestMessage` from `scale-up.ts`. -/
structure ActionRequestMessage where
  id : Nat
  eventType : String
  repositoryName : String
  repositoryOwner : String
  installationId : Nat
deriving DecidableEq, Repr

/-- The environment variables `scaleUp` reads.  `runnerExtraLabels` and
`runnerGroup` use `Option` because the code tests them with `!== undefined`;
`ghesBaseUrl` is also optional and the code tests its JS truthiness
(`if (ghesBaseUrl)`), under which the empty string counts as absent. -/
structure Env where
  enableOrgLevel : Bool
  runnerExtraLabels : Option String
  runnerGroup : Option String
  environment : String
  ghesBaseUrl : Option String
deriving DecidableEq, Repr

/-- JS truthiness of an optional string environment variable: `undefined` and
`""` are falsy, every other string truthy. -/
def strTruthy : Option String → Bool
  | none => false
  | some s => s != ""

/-- The responses of the external collaborators, fixed for one invocation:
the installation ids the two lookup endpoints would return, the check-run
status, the tracked-runner inventory, the live runner list, and the
registration token the token endpoint returns. -/
structure World where
  orgInstallationId : Nat
  repoInstallationId : Nat
  checkRunStatus : String
  trackedRunners : List RunnerRecord
  liveRunners : List GhRunner
  registrationToken : String
deriving DecidableEq, Repr

/-- One outbound call of the invocation, in the order the code makes them. -/
inductive Call where
  /-- `createGithubAuth(undefined, 'app', ghesApiUrl)` -/
  | authApp (ghesApiUrl : String)
  /-- `githubClient.apps.getOrgInstallation({ org })` -/
  | getOrgInstallation (org : String)
  /-- `githubClient.apps.getRepoInstallation({ owner, repo })` -/
  | getRepoInstallation (owner repo : String)
  /-- `createGithubAuth(installationId, 'installation', ghesApiUrl)` -/
  | authInstallation (installationId : Nat) (ghesApiUrl : String)
  /-- `githubInstallationClient.checks.get({ check_run_id, owner, repo })` -/
  | getCheckRun (checkRunId : Nat) (owner repo : String)
  /-- `listRunners({ environment, repoName })` -/
  | listTracked (environment : String) (repoName : Option String)
  /-- `listGithubRunners(client, org, repo, enableOrgLevel)` inside `allRunnersBusy` -/
  | listLive (org repo : String) (enableOrgLevel : Bool)
  /-- `actions.createRegistrationTokenForOrg({ org })` -/
  | createRegTokenOrg (org : String)
  /-- `actions.createRegistrationTokenForRepo({ owner, repo })` -/
  | createRegTokenRepo (owner repo : String)
  /-- `createRunner({ environment, runnerConfig, orgName, repoName, runnerType })` -/
  | createRunner (runnerConfig : String) (orgName repoName : Option String) (runnerType : RunnerType)
deriving DecidableEq, Repr

/-- A JavaScript `Promise` that has not been awaited: in this sequential
embedding it is just its eventual value, but as a JS *object* it is always
truthy when used directly as an `if` condition. -/
structure JsPromise (α : Type) where
  value : α
deriving DecidableEq, Repr

/-- JS truthiness of a `Promise` object: every object is truthy, regardless of
the value the promise resolves to. -/
def JsPromise.jsTruthy {α : Type} (_ : JsPromise α) : Bool := true

/-- The boolean `allRunnersBusy` resolves to: filter the live runners to those
carrying the category's label (`x.labels.some(y => y.name === runnerType)`)
and not offline (`x.status !== "offline"`), then test
`runnersWithLabel.every(x => x.busy)`. -/
def allRunnersBusyValue (runnerType : String) (ghRunners : List GhRunner) : Bool :=
  (ghRunners.filter fun x =>
      (x.labels.any fun y => y.name == runnerType) && x.status != "offline").all
    fun x => x.busy

/-- The calls `allRunnersBusy` makes when invoked: one live-runner listing for
the scope (the client-factory plumbing is pure construction and not traced). -/
def allRunnersBusyCalls (org repo : String) (enableOrgLevel : Bool) : List Call :=
  [Call.listLive org repo enableOrgLevel]

/-- `allRunnersBusy(runnerType, org, repo, enableOrgLevel)` as the code has it:
an async function, i.e. a `Promise` resolving to the filtered-every-busy
boolean, emitting its listing call when invoked. -/
def allRunnersBusy (runnerType org repo : String) (enableOrgLevel : Bool)
    (ghRunners : List GhRunner) : List Call × JsPromise Bool :=
  (allRunnersBusyCalls org repo enableOrgLevel,
    { value := allRunnersBusyValue runnerType ghRunners })

/-- The hardcoded `runnerTypes` dictionary of `scale-up.ts`, in insertion
order (the order a JS `for ... in` enumerates string keys). -/
def runnerTypes : List (String × RunnerType) :=
  [("linux.2xlarge",
    { instance_type := "c5.2xlarge", os := "linux",
      ami_filter := "amzn2-ami-hvm-2.0*x86_64-ebs",
      max_available := 200, min_available := 10, disk_size := 100,
      runnerTypeName := "linux.2xlarge" }),
   ("linux.8xlarge.nvidia.gpu",
    { instance_type := "g3.8xlarge", os := "linux",
      ami_filter := "amzn2-ami-hvm-2.0*x86_64-ebs",
      max_available := 50, min_available := 1, disk_size := 100,
      runnerTypeName := "linux.8xlarge.nvidia.gpu" }),
   ("win.2xlarge",
    { instance_type := "c5.2xlarge", os := "windows",
      ami_filter := "Windows_Server-2019-English-Core*",
      max_available := 50, min_available := 10, disk_size := 100,
      runnerTypeName := "win.2xlarge" }),
   ("win.8xlarge.nvidia.gpu",
    { instance_type := "g3.8xlarge", os := "windows",
      ami_filter := "Windows_Server-2019-English-Core*",
      max_available := 30, min_available := 10, disk_size := 100,
      runnerTypeName := "win.8xlarge.nvidia.gpu" })]

/-- `ghesApiUrl`: `ghesBaseUrl + '/api/v3'` when `GHES_URL` is truthy, else `''`. -/
def ghesApiUrlOf (env : Env) : String :=
  if strTruthy env.ghesBaseUrl then env.ghesBaseUrl.getD "" ++ "/api/v3" else ""

/-- `repoName`: `undefined` at org level, else `owner/repo`. -/
def repoNameOf (env : Env) (payload : ActionRequestMessage) : Option String :=
  if env.enableOrgLevel then none
  else some (payload.repositoryOwner ++ "/" ++ payload.repositoryName)

/-- `orgName`: `owner` at org level, else `undefined`. -/
def orgNameOf (env : Env) (payload : ActionRequestMessage) : Option String :=
  if env.enableOrgLevel then some payload.repositoryOwner else none

/-- The installation id actually used: the payload's when nonzero, otherwise
the id the org- or repo-installation lookup returns. -/
def installationIdOf (env : Env) (w : World) (payload : ActionRequestMessage) : Nat :=
  if payload.installationId == 0 then
    if env.enableOrgLevel then w.orgInstallationId else w.repoInstallationId
  else payload.installationId

/-- The calls of the lazy installation lookup: on `installationId == 0`,
app-identity auth then the org- or repo-scoped lookup; otherwise none. -/
def lookupCallsOf (env : Env) (payload : ActionRequestMessage) : List Call :=
  if payload.installationId == 0 then
    [Call.authApp (ghesApiUrlOf env),
     if env.enableOrgLevel then Call.getOrgInstallation payload.repositoryOwner
     else Call.getRepoInstallation payload.repositoryOwner payload.repositoryName]
  else []

/-- `configBaseUrl`: the GHES base url when truthy, else `https://github.com`. -/
def configBaseUrlOf (env : Env) : String :=
  if strTruthy env.ghesBaseUrl then env.ghesBaseUrl.getD "" else "https://github.com"

/-- The composed `runnerConfig` string handed to `createRunner`: the
`labelsArgument`, `runnerGroupArgument` and `configBaseUrl` locals and the
two template literals of the org-level / repo-level branches, verbatim. -/
def runnerConfigOf (env : Env) (payload : ActionRequestMessage)
    (token runnerType : String) : String :=
  let labelsArgument :=
    match env.runnerExtraLabels with
    | some extra => "--labels " ++ runnerType ++ "," ++ extra
    | none => "--labels " ++ runnerType
  let runnerGroupArgument :=
    match env.runnerGroup with
    | some g => " --runnergroup " ++ g
    | none => ""
  let configBaseUrl := configBaseUrlOf env
  if env.enableOrgLevel then
    "--url " ++ configBaseUrl ++ "/" ++ payload.repositoryOwner ++ " --token " ++ token
      ++ " " ++ labelsArgument ++ runnerGroupArgument
  else
    "--url " ++ configBaseUrl ++ "/" ++ payload.repositoryOwner ++ "/"
      ++ payload.repositoryName ++ " --token " ++ token ++ " " ++ labelsArgument

/-- One iteration of the `for (const runnerType in runnerTypes)` loop body.
If the tracked count of this category has reached `max_available` the body
does nothing.  Otherwise it invokes `allRunnersBusy` and branches on the
*unawaited* promise (`if (allRunnersBusy(...))` — no `await`), whose JS
truthiness as an object is always `true`; in the then-branch it creates a
registration token (org- or repo-scoped) and calls `createRunner` with the
composed configuration. -/
def scaleUpCategory (env : Env) (w : World) (payload : ActionRequestMessage)
    (runnerType : String) (rt : RunnerType) : List Call :=
  let currentRunnerCount :=
    (w.trackedRunners.filter fun x => x.runnerType == runnerType).length
  if currentRunnerCount < rt.max_available then
    let busy := allRunnersBusy runnerType payload.repositoryOwner
      payload.repositoryName env.enableOrgLevel w.liveRunners
    if busy.2.jsTruthy then
      let tokenCall :=
        if env.enableOrgLevel then Call.createRegTokenOrg payload.repositoryOwner
        else Call.createRegTokenRepo payload.repositoryOwner payload.repositoryName
      busy.1 ++ [tokenCall,
        Call.createRunner (runnerConfigOf env payload w.registrationToken runnerType)
          (orgNameOf env payload) (repoNameOf env payload) rt]
    else busy.1
  else []

/-- The calls made after the installation is resolved: installation auth,
check-run fetch, and — only when the check run is `queued` — the
tracked-runner listing followed by the per-category loop. -/
def scaleUpTail (env : Env) (w : World) (payload : ActionRequestMessage) : List Call :=
  [Call.authInstallation (installationIdOf env w payload) (ghesApiUrlOf env),
   Call.getCheckRun payload.id payload.repositoryOwner payload.repositoryName]
    ++ (if w.checkRunStatus == "queued" then
          Call.listTracked env.environment (repoNameOf env payload)
            :: runnerTypes.flatMap fun tr => scaleUpCategory env w payload tr.1 tr.2
        else [])

/-- The trace of a successful invocation (the event source already checked):
optional installation lookup, then everything installation-scoped. -/
def scaleUpCalls (env : Env) (w : World) (payload : ActionRequestMessage) : List Call :=
  lookupCallsOf env payload ++ scaleUpTail env w payload

/-- `scaleUp(eventSource, payload)`: throws on a non-SQS event source, else
runs to completion producing the call trace. -/
def scaleUp (eventSource : String) (env : Env) (w : World)
    (payload : ActionRequestMessage) : Except String (List Call) :=
  if eventSource != "aws:sqs" then Except.error "Cannot handle non-SQS events!"
  else Except.ok (scaleUpCalls env w payload)

/-- Is this call an installation lookup? -/
def Call.isLookup : Call → Bool
  | .getOrgInstallation _ => true
  | .getRepoInstallation _ _ => true
  | _ => false

/-- Is this call a tracked-runner listing? -/
def Call.isListTracked : Call → Bool
  | .listTracked _ _ => true
  | _ => false

/-- Is this call a live-runner listing? -/
def Call.isListLive : Call → Bool
  | .listLive _ _ _ => true
  | _ => false

/-- Is this call a registration-token creation? -/
def Call.isRegToken : Call → Bool
  | .createRegTokenOrg _ => true
  | .createRegTokenRepo _ _ => true
  | _ => false

/-- Is this call a runner creation? -/
def Call.isCreateRunner : Call → Bool
  | .createRunner _ _ _ _ => true
  | _ => false

/-- Is this call a runner creation for the category named `t`? -/
def Call.isCreateRunnerFor (t : String) : Call → Bool
  | .createRunner _ _ _ rt => rt.runnerTypeName == t
  | _ => false

/-! Sample inputs used by the closed witness and scenario theorems. -/

/-- Sample environment: org-level policy (the default), no extra labels, no
runner group, no GHES url. -/
def envA : Env :=
  { enableOrgLevel := true, runnerExtraLabels := none, runnerGroup := none,
    environment := "unit-test", ghesBaseUrl := none }

/-- Sample message: check run 1 for `acme/widgets`, installation already known. -/
def msgA : ActionRequestMessage :=
  { id := 1, eventType := "check_run", repositoryName := "widgets",
    repositoryOwner := "acme", installationId := 1 }

/-- Sample world: queued check run, empty inventories. -/
def worldA : World :=
  { orgInstallationId := 77, repoInstallationId := 88, checkRunStatus := "queued",
    trackedRunners := [], liveRunners := [], registrationToken := "TOK" }

/-- Sample world whose check run is already completed. -/
def worldCompleted : World :=
  { worldA with checkRunStatus := "completed" }

/-- C3: when the live list filtered to runners that carry the category's label
and are not offline is empty, the admission value `allRunnersBusy` resolves to
is `true` (`[].every(...)` is vacuously true), so a category with zero matching
live runners is admitted for provisioning, never falsely rejected. -/
theorem admission_vacuously_true_on_empty (t : String) (live : List GhRunner)
    (h : live.filter (fun x =>
        (x.labels.any fun y => y.name == t) && x.status != "offline") = []) :
    allRunnersBusyValue t live = true := by
  unfold allRunnersBusyValue
  rw [h]
  rfl

/-- Witness for C3 at the empty live list. -/
theorem admission_vacuously_true_on_empty_witness :
    allRunnersBusyValue "linux.2xlarge" [] = true :=
  admission_vacuously_true_on_empty "linux.2xlarge" [] rfl

/-- C2: a category whose tracked-record count has reached `max_available` is
skipped before the admission check: its loop iteration makes no call at all —
no live-runner listing, no registration token, no runner creation. -/
theorem category_at_ceiling_skipped (env : Env) (w : World)
    (m : ActionRequestMessage) (t : String) (rt : RunnerType)
    (h : rt.max_available ≤ (w.trackedRunners.filter fun x => x.runnerType == t).length) :
    scaleUpCategory env w m t rt = [] := by
  have hlt : ¬ ((w.trackedRunners.filter fun x => x.runnerType == t).length
      < rt.max_available) := by omega
  simp [scaleUpCategory, hlt]

/-- Witness for C2: one tracked `linux.2xlarge` record against a ceiling of 1
produces an empty iteration. -/
theorem category_at_ceiling_skipped_witness :
    scaleUpCategory envA
      { worldA with trackedRunners := [{ runnerType := "linux.2xlarge" }] }
      msgA "linux.2xlarge"
      { instance_type := "c5.2xlarge", os := "linux",
        ami_filter := "amzn2-ami-hvm-2.0*x86_64-ebs",
        max_available := 1, min_available := 1, disk_size := 100,
        runnerTypeName := "linux.2xlarge" } = [] :=
  category_at_ceiling_skipped _ _ _ _ _ (by decide)

/-- C8: a non-SQS event source makes the invocation fail immediately with the
thrown error, before any outbound call (the error carries no trace). -/
theorem non_sqs_event_rejected (es : String) (env : Env) (w : World)
    (m : ActionRequestMessage) (h : es ≠ "aws:sqs") :
    scaleUp es env w m = Except.error "Cannot handle non-SQS events!" := by
  simp [scaleUp, h]

/-- Witness for C8 at the event source `aws:lambda`. -/
theorem non_sqs_event_rejected_witness :
    scaleUp "aws:lambda" envA worldA msgA = Except.error "Cannot handle non-SQS events!" :=
  non_sqs_event_rejected "aws:lambda" envA worldA msgA (by decide)

/-- C4: when the fetched check-run status is anything other than `queued`, the
invocation completes successfully and its trace holds no tracked-runner
listing, no live-runner listing, no registration-token call and no
create-runner call. -/
theorem non_queued_status_no_op (env : Env) (w : World) (m : ActionRequestMessage)
    (h : w.checkRunStatus ≠ "queued") :
    scaleUp "aws:sqs" env w m = Except.ok (scaleUpCalls env w m)
    ∧ (scaleUpCalls env w m).countP
        (fun c => c.isListTracked || c.isListLive || c.isRegToken || c.isCreateRunner) = 0 := by
  refine ⟨rfl, ?_⟩
  have hb : (w.checkRunStatus == "queued") = false := beq_eq_false_iff_ne.mpr h
  by_cases h0 : m.installationId = 0
    <;> by_cases he : env.enableOrgLevel
    <;> simp [scaleUpCalls, scaleUpTail, lookupCallsOf, hb, h0, he,
          Call.isListTracked, Call.isListLive, Call.isRegToken, Call.isCreateRunner]

/-- Witness for C4 at a completed check run. -/
theorem non_queued_status_no_op_witness :
    scaleUp "aws:sqs" envA worldCompleted msgA = Except.ok (scaleUpCalls envA worldCompleted msgA)
    ∧ (scaleUpCalls envA worldCompleted msgA).countP
        (fun c => c.isListTracked || c.isListLive || c.isRegToken || c.isCreateRunner) = 0 :=
  non_queued_status_no_op envA worldCompleted msgA (by decide)

/-- C10: the decision engine never reads the message's `eventType`: two
invocations differing only in that field produce identical outcomes and
identical call traces. -/
theorem event_type_never_read (es : String) (env : Env) (w : World)
    (m : ActionRequestMessage) (s : String) :
    scaleUp es env w { m with eventType := s } = scaleUp es env w m := by
  cases m
  rfl

/-- Helper: the create-runner calls for category name `t` contributed by one
loop iteration over `(t', rt')`: one exactly when the iteration is under its
ceiling and the iterated type is named `t` — the busy/online flags of the live
runners never enter the condition. -/
theorem countP_createFor_scaleUpCategory (env : Env) (w : World)
    (m : ActionRequestMessage) (t t' : String) (rt' : RunnerType) :
    (scaleUpCategory env w m t' rt').countP (fun c => c.isCreateRunnerFor t)
    = if (w.trackedRunners.filter fun x => x.runnerType == t').length < rt'.max_available
          ∧ rt'.runnerTypeName = t then 1 else 0 := by
  by_cases hlt : (w.trackedRunners.filter fun x => x.runnerType == t').length
      < rt'.max_available
  · by_cases hname : rt'.runnerTypeName = t
      <;> by_cases he : env.enableOrgLevel
      <;> simp [scaleUpCategory, hlt, hname, he, allRunnersBusy, allRunnersBusyCalls,
            JsPromise.jsTruthy, Call.isCreateRunnerFor]
  · simp [scaleUpCategory, hlt]

/-- Helper: a loop iteration never performs an installation lookup. -/
theorem countP_lookup_scaleUpCategory (env : Env) (w : World)
    (m : ActionRequestMessage) (t : String) (rt : RunnerType) :
    (scaleUpCategory env w m t rt).countP (fun c => c.isLookup) = 0 := by
  by_cases hlt : (w.trackedRunners.filter fun x => x.runnerType == t).length
      < rt.max_available
  · by_cases he : env.enableOrgLevel
      <;> simp [scaleUpCategory, hlt, he, allRunnersBusy, allRunnersBusyCalls,
            JsPromise.jsTruthy, Call.isLookup]
  · simp [scaleUpCategory, hlt]

/-- C6: the trace always decomposes as the lazy installation-lookup prefix
followed by a lookup-free remainder; the prefix holds exactly one lookup call
when the message's `installationId` is `0` and none otherwise, and consists
only of the app-identity authentication and the lookup itself — so the lookup,
when made, precedes every installation-scoped call. -/
theorem installation_lookup_exactly_when_unresolved (env : Env) (w : World)
    (m : ActionRequestMessage) :
    ∃ rest, scaleUpCalls env w m = lookupCallsOf env m ++ rest
      ∧ rest.countP (fun c => c.isLookup) = 0
      ∧ (lookupCallsOf env m).countP (fun c => c.isLookup)
          = (if m.installationId = 0 then 1 else 0)
      ∧ ∀ c ∈ lookupCallsOf env m,
          c = Call.authApp (ghesApiUrlOf env) ∨ c.isLookup = true := by
  refine ⟨scaleUpTail env w m, rfl, ?_, ?_, ?_⟩
  · rw [List.countP_eq_zero]
    intro c hc
    simp only [scaleUpTail, List.mem_append, List.mem_cons,
      List.mem_singleton] at hc
    rcases hc with hc | hc
    · rcases hc with rfl | rfl | hc
      · simp [Call.isLookup]
      · simp [Call.isLookup]
      · simp at hc
    · by_cases hq : (w.checkRunStatus == "queued") = true
      · rw [if_pos hq] at hc
        simp only [List.mem_cons] at hc
        rcases hc with rfl | hc
        · simp [Call.isLookup]
        · simp only [List.mem_flatMap] at hc
          obtain ⟨tr, _, hmem⟩ := hc
          have := countP_lookup_scaleUpCategory env w m tr.1 tr.2
          rw [List.countP_eq_zero] at this
          exact this c hmem
      · rw [if_neg hq] at hc
        simp at hc
  · by_cases h0 : m.installationId = 0
      <;> by_cases he : env.enableOrgLevel
      <;> simp [lookupCallsOf, h0, he, Call.isLookup]
  · intro c hc
    by_cases h0 : m.installationId = 0
      <;> by_cases he : env.enableOrgLevel
      <;> simp [lookupCallsOf, h0, he] at hc
      <;> rcases hc with rfl | rfl
      <;> simp [Call.isLookup]

/-- C9: for every category under its ceiling during a `queued` invocation,
exactly one registration-token call and one create-runner call are made for
that category — for every world, i.e. irrespective of the busy and online
flags of the live runners, because the code branches on the unawaited
(always-truthy) promise returned by `allRunnersBusy`. -/
theorem provision_unconditional_below_ceiling (env : Env) (w : World)
    (m : ActionRequestMessage) (t : String) (rt : RunnerType)
    (hmem : (t, rt) ∈ runnerTypes)
    (hq : w.checkRunStatus = "queued")
    (hlt : (w.trackedRunners.filter fun x => x.runnerType == t).length
        < rt.max_available) :
    (scaleUpCategory env w m t rt).countP (fun c => c.isRegToken) = 1
    ∧ (scaleUpCategory env w m t rt).countP (fun c => c.isCreateRunner) = 1
    ∧ (scaleUpCalls env w m).countP (fun c => c.isCreateRunnerFor t) = 1 := by
  have hq' : (w.checkRunStatus == "queued") = true := by simp [hq]
  refine ⟨?_, ?_, ?_⟩
  · by_cases he : env.enableOrgLevel
      <;> simp [scaleUpCategory, hlt, he, allRunnersBusy, allRunnersBusyCalls,
            JsPromise.jsTruthy, Call.isRegToken]
  · by_cases he : env.enableOrgLevel
      <;> simp [scaleUpCategory, hlt, he, allRunnersBusy, allRunnersBusyCalls,
            JsPromise.jsTruthy, Call.isCreateRunner]
  · have hlk : (lookupCallsOf env m).countP (fun c => c.isCreateRunnerFor t) = 0 := by
      rw [List.countP_eq_zero]
      intro c hc
      by_cases h0 : m.installationId = 0
        <;> by_cases he : env.enableOrgLevel
        <;> simp [lookupCallsOf, h0, he] at hc
        <;> rcases hc with rfl | rfl
        <;> simp [Call.isCreateRunnerFor]
    simp only [runnerTypes, List.mem_cons, List.mem_singleton, Prod.mk.injEq,
      List.not_mem_nil, or_false] at hmem
    rcases hmem with ⟨rfl, rfl⟩ | ⟨rfl, rfl⟩ | ⟨rfl, rfl⟩ | ⟨rfl, rfl⟩
    all_goals
      simp only [scaleUpCalls, scaleUpTail, List.countP_append, hq',
        eq_self_iff_true, if_true, List.countP_cons, runnerTypes,
        List.flatMap_cons, List.flatMap_nil, List.append_nil,
        countP_createFor_scaleUpCategory, hlk]
    all_goals simp [Call.isCreateRunnerFor, hlt]

/-- Witness for C9: `linux.2xlarge` with no tracked runners and an empty live
list still gets exactly one token call and one creation call. -/
theorem provision_unconditional_below_ceiling_witness :
    (scaleUpCategory envA worldA msgA "linux.2xlarge"
      { instance_type := "c5.2xlarge", os := "linux",
        ami_filter := "amzn2-ami-hvm-2.0*x86_64-ebs",
        max_available := 200, min_available := 10, disk_size := 100,
        runnerTypeName := "linux.2xlarge" }).countP (fun c => c.isRegToken) = 1
    ∧ (scaleUpCategory envA worldA msgA "linux.2xlarge"
      { instance_type := "c5.2xlarge", os := "linux",
        ami_filter := "amzn2-ami-hvm-2.0*x86_64-ebs",
        max_available := 200, min_available := 10, disk_size := 100,
        runnerTypeName := "linux.2xlarge" }).countP (fun c => c.isCreateRunner) = 1
    ∧ (scaleUpCalls envA worldA msgA).countP
        (fun c => c.isCreateRunnerFor "linux.2xlarge") = 1 :=
  provision_unconditional_below_ceiling envA worldA msgA "linux.2xlarge" _
    (by decide) rfl (by decide)

/-- A world whose live list has one idle (online, not busy) `linux.2xlarge`
runner — the input on which the admission gate was meant to refuse
provisioning. -/
def worldIdle : World :=
  { orgInstallationId := 77, repoInstallationId := 88, checkRunStatus := "queued",
    trackedRunners := [],
    liveRunners := [{ labels := [{ name := "linux.2xlarge" }],
                      status := "online", busy := false }],
    registrationToken := "TOK" }

/-- C1: the code contradicts the documented gate.  With one idle matching
runner the value `allRunnersBusy` resolves to is `false` (the admission check
fails, so per the spec no runner may be created), yet the invocation still
makes a create-runner call for the category: the code tests the *unawaited*
promise object (`if (allRunnersBusy(...))` without `await`), which is always
truthy. -/
theorem idle_runner_still_provisioned :
    allRunnersBusyValue "linux.2xlarge" worldIdle.liveRunners = false
    ∧ (scaleUpCalls envA worldIdle msgA).countP
        (fun c => c.isCreateRunnerFor "linux.2xlarge") = 1 := by
  decide

/-- The `linux.2xlarge` entry of the hardcoded table. -/
def rtLinux2xlarge : RunnerType :=
  { instance_type := "c5.2xlarge", os := "linux",
    ami_filter := "amzn2-ami-hvm-2.0*x86_64-ebs",
    max_available := 200, min_available := 10, disk_size := 100,
    runnerTypeName := "linux.2xlarge" }

/-- The message of the C5 scenario: check run 42 on `acme/widgets`. -/
def msgC5 : ActionRequestMessage :=
  { id := 42, eventType := "check_run", repositoryName := "widgets",
    repositoryOwner := "acme", installationId := 1 }

/-- The world of the C5 scenario: queued check run, 5 tracked `linux.2xlarge`
records, 3 live `linux.2xlarge` runners all busy. -/
def worldC5 : World :=
  { orgInstallationId := 77, repoInstallationId := 88, checkRunStatus := "queued",
    trackedRunners := List.replicate 5 { runnerType := "linux.2xlarge" },
    liveRunners := List.replicate 3
      { labels := [{ name := "linux.2xlarge" }], status := "online", busy := true },
    registrationToken := "TOK" }

/-- C5: in the concrete org-level scenario (owner `acme`, repo `widgets`,
status `queued`, `currentCount = 5 < 200`, 3 busy live runners), the
`linux.2xlarge` iteration makes exactly one live listing, one org-scoped
registration-token call and one create-runner call, whose configuration
string is exactly `--url https://github.com/acme --token TOK --labels
linux.2xlarge` — containing the label `linux.2xlarge` and the target URL
`https://github.com/acme`; across the whole invocation there is exactly one
create-runner call for that category. -/
theorem scenario_acme_queued_provisions_once :
    scaleUpCategory envA worldC5 msgC5 "linux.2xlarge" rtLinux2xlarge =
      [Call.listLive "acme" "widgets" true,
       Call.createRegTokenOrg "acme",
       Call.createRunner "--url https://github.com/acme --token TOK --labels linux.2xlarge"
         (some "acme") none rtLinux2xlarge]
    ∧ (scaleUpCategory envA worldC5 msgC5 "linux.2xlarge" rtLinux2xlarge).countP
        (fun c => c.isRegToken) = 1
    ∧ (scaleUpCategory envA worldC5 msgC5 "linux.2xlarge" rtLinux2xlarge).countP
        (fun c => c.isCreateRunner) = 1
    ∧ (scaleUpCalls envA worldC5 msgC5).countP
        (fun c => c.isCreateRunnerFor "linux.2xlarge") = 1 := by
  decide

/-- Split a character list at every occurrence of `c` (the separators are
dropped; `n` separators yield `n + 1` chunks, possibly empty). -/
def splitOnChar (c : Char) : List Char → List (List Char)
  | [] => [[]]
  | x :: xs =>
    match splitOnChar c xs with
    | [] => [[]]
    | y :: ys => if x = c then [] :: y :: ys else (x :: y) :: ys

/-- Rejoin chunks with the separator `c` between consecutive chunks. -/
def joinChar (c : Char) : List (List Char) → List Char
  | [] => []
  | [x] => x
  | x :: y :: ys => x ++ c :: joinChar c (y :: ys)

/-- `splitOnChar` never returns the empty list of chunks. -/
theorem splitOnChar_ne_nil (c : Char) (l : List Char) : splitOnChar c l ≠ [] := by
  induction l with
  | nil => simp [splitOnChar]
  | cons x xs ih =>
    simp only [splitOnChar]
    cases h : splitOnChar c xs with
    | nil => exact absurd h ih
    | cons y ys =>
      show (if x = c then [] :: y :: ys else (x :: y) :: ys) ≠ []
      split <;> simp

/-- A list free of the separator is a single chunk. -/
theorem splitOnChar_not_mem (c : Char) (l : List Char) (h : c ∉ l) :
    splitOnChar c l = [l] := by
  induction l with
  | nil => rfl
  | cons x xs ih =>
    have hx : ¬ x = c := fun hh => h (hh ▸ List.mem_cons_self x xs)
    have hxs : c ∉ xs := fun hh => h (List.mem_cons_of_mem _ hh)
    simp only [splitOnChar]
    rw [ih hxs]
    simp [hx]

/-- Splitting at an explicit separator after a separator-free prefix peels the
prefix off as the first chunk. -/
theorem splitOnChar_append (c : Char) (a b : List Char) (h : c ∉ a) :
    splitOnChar c (a ++ c :: b) = a :: splitOnChar c b := by
  induction a with
  | nil =>
    simp only [List.nil_append, splitOnChar]
    cases hb : splitOnChar c b with
    | nil => exact absurd hb (splitOnChar_ne_nil c b)
    | cons y ys => simp
  | cons x xs ih =>
    have hx : ¬ x = c := fun hh => h (hh ▸ List.mem_cons_self x xs)
    have hxs : c ∉ xs := fun hh => h (List.mem_cons_of_mem _ hh)
    simp only [List.cons_append, splitOnChar, List.append_eq]
    rw [ih hxs]
    simp [hx]

/-- `joinChar` is a left inverse of `splitOnChar`. -/
theorem joinChar_splitOnChar (c : Char) (l : List Char) :
    joinChar c (splitOnChar c l) = l := by
  induction l with
  | nil => rfl
  | cons x xs ih =>
    simp only [splitOnChar]
    cases h : splitOnChar c xs with
    | nil => exact absurd h (splitOnChar_ne_nil c xs)
    | cons y ys =>
      rw [h] at ih
      by_cases hx : x = c
      · simp only [if_pos hx, joinChar, List.nil_append]
        rw [ih, hx]
      · simp only [if_neg hx]
        cases ys with
        | nil =>
          simp only [joinChar] at ih ⊢
          rw [ih]
        | cons z zs =>
          simp only [joinChar, List.cons_append] at ih ⊢
          rw [ih]

/-- Structure-eta: rebuilding a string from its characters gives it back. -/
theorem mk_data_eq (s : String) : String.mk s.data = s := rfl

/-- Modelled from the spec: the round-trip parser for the composed runner
configuration string (the spec's round-trip property presupposes one; no
parser exists in the source).  Tokenises at spaces; the category label is the
first comma-chunk of the token after `--labels` (token 5), the extra labels
are the remaining comma-chunks rejoined, and the runner group is the token
following a literal `--runnergroup` token (token 6/7 of an org-level
configuration). -/
def specParseRunnerConfig (s : String) : String × Option String × Option String :=
  match splitOnChar ' ' s.data with
  | _ :: _ :: _ :: _ :: _ :: labelsTok :: rest =>
    let category := String.mk ((splitOnChar ',' labelsTok).headD [])
    let extras :=
      match splitOnChar ',' labelsTok with
      | [] => none
      | [_] => none
      | _ :: restPieces => some (String.mk (joinChar ',' restPieces))
    let group :=
      match rest with
      | g1 :: g2 :: _ =>
        if g1 = "--runnergroup".data then some (String.mk g2) else none
      | _ => none
    (category, extras, group)
  | _ => ("", none, none)

/-- Tokenising the fixed `--url U --token T --labels …` frame of an org-level
configuration, for space-free `u` and `tk`. -/
theorem split_config_tokens (u tk L : List Char)
    (hu : ' ' ∉ u) (htk : ' ' ∉ tk) :
    splitOnChar ' '
      ("--url".data ++ ' ' :: (u ++ ' ' :: ("--token".data ++ ' ' ::
        (tk ++ ' ' :: ("--labels".data ++ ' ' :: L)))))
    = "--url".data :: u :: "--token".data :: tk :: "--labels".data
        :: splitOnChar ' ' L := by
  rw [splitOnChar_append ' ' _ _ (by decide),
      splitOnChar_append ' ' _ _ hu,
      splitOnChar_append ' ' _ _ (by decide),
      splitOnChar_append ' ' _ _ htk,
      splitOnChar_append ' ' _ _ (by decide)]

/-- The org-level environment with adversarial extra labels: the extra-label
string itself contains ` --runnergroup default`. -/
def envAmbig1 : Env :=
  { envA with runnerExtraLabels := some "gpu --runnergroup default" }

/-- The org-level environment with extra label `gpu` and runner group
`default`. -/
def envAmbig2 : Env :=
  { envA with runnerExtraLabels := some "gpu", runnerGroup := some "default" }

/-- C7 counterexample: the composition is not injective in the extra-label and
runner-group settings, so no parser can recover them from the composed string
for *every* setting.  The two distinct settings above compose to the same
configuration string, and the parser (necessarily) mis-recovers the first. -/
theorem runner_config_roundtrip_fails :
    runnerConfigOf envAmbig1 msgA "TOK" "linux.2xlarge"
      = runnerConfigOf envAmbig2 msgA "TOK" "linux.2xlarge"
    ∧ (envAmbig1.runnerExtraLabels, envAmbig1.runnerGroup)
        ≠ (envAmbig2.runnerExtraLabels, envAmbig2.runnerGroup)
    ∧ specParseRunnerConfig (runnerConfigOf envAmbig1 msgA "TOK" "linux.2xlarge")
        ≠ ("linux.2xlarge", envAmbig1.runnerExtraLabels, envAmbig1.runnerGroup) := by
  decide

/-- Characters of the literal `"--url "`. -/
theorem dataUrlSp : ("--url ").data = ['-','-','u','r','l',' '] := rfl

/-- Characters of the literal `"--url"`. -/
theorem dataUrl : ("--url").data = ['-','-','u','r','l'] := rfl

/-- Characters of the literal `"/"`. -/
theorem dataSlash : ("/").data = ['/'] := rfl

/-- Characters of the literal `" --token "`. -/
theorem dataTokenSp : (" --token ").data = [' ','-','-','t','o','k','e','n',' '] := rfl

/-- Characters of the literal `"--token"`. -/
theorem dataToken : ("--token").data = ['-','-','t','o','k','e','n'] := rfl

/-- Characters of the literal `" "`. -/
theorem dataSp : (" ").data = [' '] := rfl

/-- Characters of the literal `"--labels "`. -/
theorem dataLabelsSp : ("--labels ").data = ['-','-','l','a','b','e','l','s',' '] := rfl

/-- Characters of the literal `"--labels"`. -/
theorem dataLabels : ("--labels").data = ['-','-','l','a','b','e','l','s'] := rfl

/-- Characters of the literal `","`. -/
theorem dataComma : (",").data = [','] := rfl

/-- Characters of the literal `" --runnergroup "`. -/
theorem dataGroupSp :
    (" --runnergroup ").data
      = [' ','-','-','r','u','n','n','e','r','g','r','o','u','p',' '] := rfl

/-- Characters of the literal `"--runnergroup"`. -/
theorem dataGroup :
    ("--runnergroup").data = ['-','-','r','u','n','n','e','r','g','r','o','u','p'] := rfl

/-- Characters of the literal `""`. -/
theorem dataEmpty : ("").data = ([] : List Char) := rfl

/-- C7 (amended): for an org-level configuration whose base URL, owner and
token are space-free, whose category name is space- and comma-free, and whose
extra-label and runner-group settings are space-free, the parser recovers from
the composed configuration string exactly the category label, the extra
labels when configured, and the runner group when configured. -/
theorem runner_config_roundtrip (env : Env) (m : ActionRequestMessage) (token t : String)
    (horg : env.enableOrgLevel = true)
    (hbase : ' ' ∉ (configBaseUrlOf env).data)
    (howner : ' ' ∉ m.repositoryOwner.data)
    (htok : ' ' ∉ token.data)
    (ht1 : ' ' ∉ t.data) (ht2 : ',' ∉ t.data)
    (he : ∀ s ∈ env.runnerExtraLabels, ' ' ∉ s.data)
    (hg : ∀ s ∈ env.runnerGroup, ' ' ∉ s.data) :
    specParseRunnerConfig (runnerConfigOf env m token t)
      = (t, env.runnerExtraLabels, env.runnerGroup) := by
  have hurl : ' ' ∉ (configBaseUrlOf env).data ++ '/' :: m.repositoryOwner.data := by
    intro hmem
    rcases List.mem_append.mp hmem with hml | hml
    · exact hbase hml
    · rcases List.mem_cons.mp hml with hc | hc
      · exact absurd hc (by decide)
      · exact howner hc
  rcases hE : env.runnerExtraLabels with _ | ex
    <;> rcases hG : env.runnerGroup with _ | gr
  · -- no extra labels, no runner group
    have hdata : (runnerConfigOf env m token t).data
        = "--url".data ++ ' ' :: (((configBaseUrlOf env).data ++ '/' :: m.repositoryOwner.data)
          ++ ' ' :: ("--token".data ++ ' ' :: (token.data ++ ' '
            :: ("--labels".data ++ ' ' :: t.data)))) := by
      simp [runnerConfigOf, hE, hG, horg, String.data_append, dataUrlSp, dataUrl,
        dataSlash, dataTokenSp, dataToken, dataSp, dataLabelsSp, dataLabels, dataEmpty,
        List.append_assoc]
    simp only [specParseRunnerConfig]
    rw [hdata, split_config_tokens _ _ _ hurl htok, splitOnChar_not_mem ' ' t.data ht1]
    simp [splitOnChar_not_mem ',' t.data ht2, mk_data_eq, hE, hG]
  · -- no extra labels, runner group `gr`
    have hgr : ' ' ∉ gr.data := hg gr (by simp [hG])
    have hdata : (runnerConfigOf env m token t).data
        = "--url".data ++ ' ' :: (((configBaseUrlOf env).data ++ '/' :: m.repositoryOwner.data)
          ++ ' ' :: ("--token".data ++ ' ' :: (token.data ++ ' '
            :: ("--labels".data ++ ' ' :: (t.data ++ ' '
              :: ("--runnergroup".data ++ ' ' :: gr.data)))))) := by
      simp [runnerConfigOf, hE, hG, horg, String.data_append, dataUrlSp, dataUrl,
        dataSlash, dataTokenSp, dataToken, dataSp, dataLabelsSp, dataLabels,
        dataGroupSp, dataGroup, List.append_assoc]
    simp only [specParseRunnerConfig]
    rw [hdata, split_config_tokens _ _ _ hurl htok,
      splitOnChar_append ' ' t.data _ ht1,
      splitOnChar_append ' ' ("--runnergroup").data _ (by decide),
      splitOnChar_not_mem ' ' gr.data hgr]
    simp [splitOnChar_not_mem ',' t.data ht2, mk_data_eq, hE, hG, dataGroup]
  · -- extra labels `ex`, no runner group
    have hex : ' ' ∉ ex.data := he ex (by simp [hE])
    have hL : ' ' ∉ t.data ++ ',' :: ex.data := by
      intro hmem
      rcases List.mem_append.mp hmem with hml | hml
      · exact ht1 hml
      · rcases List.mem_cons.mp hml with hc | hc
        · exact absurd hc (by decide)
        · exact hex hc
    have hdata : (runnerConfigOf env m token t).data
        = "--url".data ++ ' ' :: (((configBaseUrlOf env).data ++ '/' :: m.repositoryOwner.data)
          ++ ' ' :: ("--token".data ++ ' ' :: (token.data ++ ' '
            :: ("--labels".data ++ ' ' :: (t.data ++ ',' :: ex.data))))) := by
      simp [runnerConfigOf, hE, hG, horg, String.data_append, dataUrlSp, dataUrl,
        dataSlash, dataTokenSp, dataToken, dataSp, dataLabelsSp, dataLabels,
        dataComma, dataEmpty, List.append_assoc]
    simp only [specParseRunnerConfig]
    rw [hdata, split_config_tokens _ _ _ hurl htok,
      splitOnChar_not_mem ' ' _ hL]
    cases hsp : splitOnChar ',' ex.data with
    | nil => exact absurd hsp (splitOnChar_ne_nil ',' ex.data)
    | cons p ps =>
      simp only [splitOnChar_append ',' t.data ex.data ht2, hsp, List.headD_cons]
      rw [show (p :: ps : List (List Char)) = splitOnChar ',' ex.data from hsp.symm]
      simp [joinChar_splitOnChar, mk_data_eq, hE, hG]
  · -- extra labels `ex` and runner group `gr`
    have hex : ' ' ∉ ex.data := he ex (by simp [hE])
    have hgr : ' ' ∉ gr.data := hg gr (by simp [hG])
    have hL : ' ' ∉ t.data ++ ',' :: ex.data := by
      intro hmem
      rcases List.mem_append.mp hmem with hml | hml
      · exact ht1 hml
      · rcases List.mem_cons.mp hml with hc | hc
        · exact absurd hc (by decide)
        · exact hex hc
    have hdata : (runnerConfigOf env m token t).data
        = "--url".data ++ ' ' :: (((configBaseUrlOf env).data ++ '/' :: m.repositoryOwner.data)
          ++ ' ' :: ("--token".data ++ ' ' :: (token.data ++ ' '
            :: ("--labels".data ++ ' ' :: ((t.data ++ ',' :: ex.data) ++ ' '
              :: ("--runnergroup".data ++ ' ' :: gr.data)))))) := by
      simp [runnerConfigOf, hE, hG, horg, String.data_append, dataUrlSp, dataUrl,
        dataSlash, dataTokenSp, dataToken, dataSp, dataLabelsSp, dataLabels,
        dataComma, dataGroupSp, dataGroup, List.append_assoc]
    simp only [specParseRunnerConfig]
    rw [hdata, split_config_tokens _ _ _ hurl htok,
      splitOnChar_append ' ' _ _ hL,
      splitOnChar_append ' ' ("--runnergroup").data _ (by decide),
      splitOnChar_not_mem ' ' gr.data hgr]
    cases hsp : splitOnChar ',' ex.data with
    | nil => exact absurd hsp (splitOnChar_ne_nil ',' ex.data)
    | cons p ps =>
      simp only [splitOnChar_append ',' t.data ex.data ht2, hsp, List.headD_cons]
      rw [show (p :: ps : List (List Char)) = splitOnChar ',' ex.data from hsp.symm]
      simp [joinChar_splitOnChar, mk_data_eq, hE, hG, dataGroup]

/-- Witness for the amended C7 at extra labels `gpu` and runner group
`default`. -/
theorem runner_config_roundtrip_witness :
    specParseRunnerConfig (runnerConfigOf envAmbig2 msgA "TOK" "linux.2xlarge")
      = ("linux.2xlarge", envAmbig2.runnerExtraLabels, envAmbig2.runnerGroup) :=
  runner_config_roundtrip envAmbig2 msgA "TOK" "linux.2xlarge" rfl (by decide)
    (by decide) (by decide) (by decide) (by decide)
    (by intro s hs; simp [envAmbig2, envA] at hs; subst hs; decide)
    (by intro s hs; simp [envAmbig2, envA] at hs; subst hs; decide)
